import Mathlib

/-!
Verification of the Stats Extraction Engine of
`scripts/scrape_creations_stats_to_csv.py`.

The Python source is shallowly embedded as follows:

* JSON-like payloads (Python objects obtained from JSON) become the
  inductive `Json` (objects as association lists in insertion order,
  arrays, strings, numbers, booleans, null).  A Python `None` is
  `Json.null`.  A JSON number is stored as its integer part together
  with the string of digits after the decimal point (empty for an
  integer), which determines both its `str()` rendering and its
  truthiness.
* Strings are processed as `List Char`; Python's `str.lower`, `strip`,
  `re` semantics are modelled for ASCII text (the labels, key names and
  markers used by the program are all ASCII).
* `str(x)`/`repr(x)` become `pyStrL`/`pyReprL`.  The `repr` of a string
  is modelled with single-quote delimiters and backslash escaping of
  the quote and the backslash; Python additionally switches delimiters
  or escapes control characters in corner cases, which no checked claim
  depends on (the normalizer only performs case-insensitive substring
  probes for platform words).
* The regular expressions of `find_platform_block` are embedded by
  their matching semantics on a literal platform label:
  `rf"LABEL\s*(.*?)(?=(Xbox|Computer|PC)\b|$)"` with
  `IGNORECASE | DOTALL`, and `rf"LABEL\s*([\d,]+|---)"` with
  `IGNORECASE`.  Note the greedy `\s*`, the non-greedy window, the
  word boundary after the marker alternation, and `$` matching either
  at the end of the text or just before a trailing newline.
* The extraction coordinator `extract` embeds the pure tail of
  `scrape_one` (its strategy selection and fallback guards, source
  lines 197-271), taking the payload, page text and identity fields as
  inputs.  The dead recomputation of the text blocks before the
  strategy selection (source lines 197-198) has no effect on the
  produced rows and is represented by the fact that `textRows` is only
  consulted in the fallback branch.
-/

set_option maxRecDepth 8000

/-- A JSON-like Python value: objects keep fields in insertion order,
`num i f` is the number with integer part `i` and post-decimal-point
digit string `f` (`f = ""` for a Python `int`), `null` is Python `None`. -/
inductive Json where
  | obj : List (String × Json) → Json
  | arr : List Json → Json
  | str : String → Json
  | num : Int → String → Json
  | bool : Bool → Json
  | null : Json

/-- Python `\s` (ASCII part): space, tab, newline, carriage return,
vertical tab, form feed. -/
def pyWS (c : Char) : Bool :=
  c == ' ' || c == '\t' || c == '\n' || c == '\r' || c == '\x0b' || c == '\x0c'

/-- Regex word character `\w` (ASCII part): letters, digits, underscore. -/
def isWordCharB (c : Char) : Bool := c.isAlphanum || c == '_'

/-- Lower-case a character sequence (models `str.lower` on ASCII text). -/
def lcList (s : List Char) : List Char := s.map Char.toLower

/-- Boolean list-prefix test. -/
def isPrefixOfB : List Char → List Char → Bool
  | [], _ => true
  | _ :: _, [] => false
  | a :: as, b :: bs => a == b && isPrefixOfB as bs

/-- Boolean substring-occurrence test: does `pat` occur in `hay`
(models Python's `pat in hay`)? -/
def containsTok : List Char → List Char → Bool
  | [], pat => isPrefixOfB pat []
  | h :: t, pat => isPrefixOfB pat (h :: t) || containsTok t pat

/-- Index of the first occurrence of `pat` in the second list, if any
(models the start position of a leftmost regex match of a literal). -/
def findIdxSub (pat : List Char) : List Char → Option Nat
  | [] => if isPrefixOfB pat [] then some 0 else none
  | h :: t => if isPrefixOfB pat (h :: t) then some 0 else (findIdxSub pat t).map (· + 1)

def squoteC : Char := Char.ofNat 39

def bslashC : Char := Char.ofNat 92

def lbraceC : Char := Char.ofNat 123

def rbraceC : Char := Char.ofNat 125

/-- Backslash-escaping inside a Python string `repr`. -/
def escapePyL (s : List Char) : List Char :=
  s.foldr (fun c acc => if c == bslashC || c == squoteC then bslashC :: c :: acc else c :: acc) []

mutual

/-- Python `repr` of a JSON-like value (ASCII model, see header). -/
def pyReprL : Json → List Char
  | Json.obj fs => lbraceC :: (reprFieldsL fs ++ [rbraceC])
  | Json.arr es => '[' :: (reprElemsL es ++ [']'])
  | Json.str s => squoteC :: (escapePyL s.data ++ [squoteC])
  | Json.num i f => if f = "" then (toString i).data else (toString i).data ++ ('.' :: f.data)
  | Json.bool b => if b then "True".data else "False".data
  | Json.null => "None".data

/-- Comma-separated `repr` of the fields of a Python dict. -/
def reprFieldsL : List (String × Json) → List Char
  | [] => []
  | [(k, v)] => (squoteC :: (escapePyL k.data ++ [squoteC])) ++ (':' :: ' ' :: pyReprL v)
  | (k, v) :: rest =>
    (squoteC :: (escapePyL k.data ++ [squoteC])) ++ (':' :: ' ' :: pyReprL v)
      ++ (',' :: ' ' :: reprFieldsL rest)

/-- Comma-separated `repr` of the elements of a Python list. -/
def reprElemsL : List Json → List Char
  | [] => []
  | [e] => pyReprL e
  | e :: rest => pyReprL e ++ (',' :: ' ' :: reprElemsL rest)

end

/-- Python `str` of a JSON-like value: the string itself for strings,
`repr`-style rendering otherwise. -/
def pyStrL : Json → List Char
  | Json.str s => s.data
  | Json.obj fs => pyReprL (Json.obj fs)
  | Json.arr es => pyReprL (Json.arr es)
  | Json.num i f => pyReprL (Json.num i f)
  | Json.bool b => pyReprL (Json.bool b)
  | Json.null => pyReprL Json.null

/-- Python truthiness of a JSON-like value: empty containers, the empty
string, numeric zero, `False` and `None` are falsy. -/
def truthy : Json → Bool
  | Json.obj fs => !fs.isEmpty
  | Json.arr es => !es.isEmpty
  | Json.str s => !s.isEmpty
  | Json.num i f => !(i == 0 && f.data.all (fun c => c == '0'))
  | Json.bool b => b
  | Json.null => false

/-- Base-10 value of a digit-character sequence, accumulated left to
right (models `int` applied to a string of digits). -/
def decDigits (ds : List Char) : Nat :=
  ds.foldl (fun a c => 10 * a + (c.toNat - 48)) 0

/-- Source `digits_to_int`: `None` gives `None`; otherwise coerce to a
string, strip every non-digit character, and parse what remains as a
base-10 integer, giving `None` when no digit remains. -/
def digits_to_int (s : Json) : Option Nat :=
  match s with
  | Json.null => none
  | v =>
    let n := (pyStrL v).filter Char.isDigit
    if n.isEmpty then none else some (decDigits n)

/-- Python `str.strip()` (ASCII whitespace model). -/
def trimL (s : List Char) : List Char :=
  ((s.dropWhile pyWS).reverse.dropWhile pyWS).reverse

/-- Source `normalize_platform`: map a free-form label (or `None`) to
`"PC"`, `"Xbox"` or nothing, by case-insensitive substring probes. -/
def normalize_platform (value : Option Json) : Option String :=
  match value with
  | none => none
  | some val =>
    let v := lcList (trimL (pyStrL val))
    if ["computer", "pc", "windows", "steam"].any (fun x => containsTok v x.data) then some "PC"
    else if containsTok v "xbox".data then some "Xbox"
    else none

/-- Source `find_first_int`: first key of `keys` present in the dict
whose value parses to a non-null integer; `None` for non-dicts. -/
def find_first_int (data : Json) : List String → Option Nat
  | [] => none
  | k :: rest =>
    match data with
    | Json.obj fs =>
      match fs.lookup k with
      | some v =>
        match digits_to_int v with
        | some n => some n
        | none => find_first_int data rest
      | none => find_first_int data rest
    | _ => none

/-- Source `stats_from`: the (likes, bookmarks, plays) triple read from
a dict through the fixed key-alias lists; all `None` for non-dicts. -/
def stats_from (d : Json) : Option Nat × Option Nat × Option Nat :=
  match d with
  | Json.obj _ =>
    (find_first_int d ["likes", "likeCount", "totalLikes"],
     find_first_int d ["bookmarks", "bookmarkCount", "favoriteCount", "favorites"],
     find_first_int d ["plays", "playCount", "totalPlays", "uses", "downloadCount"])
  | _ => (none, none, none)

/-- Identity fields attached to every produced row (run date, creation
id, slug, source url); id and slug are optional because the URL pattern
match in the source may fail. -/
structure Identity where
  run_date : String
  creation_id : Option String
  slug : Option String
  url : String
deriving DecidableEq

/-- One canonical output row, fields in the source's dict-literal
order. -/
structure StatRow where
  date : String
  creation_id : Option String
  slug : Option String
  platform : String
  plays : Option Nat
  likes : Option Nat
  bookmarks : Option Nat
  url : String
deriving DecidableEq

/-- Row constructor shared by all strategies (the dict literals of the
source all have this shape). -/
def mkRow (id : Identity) (platform : String) (likes bookmarks plays : Option Nat) : StatRow :=
  { date := id.run_date, creation_id := id.creation_id, slug := id.slug,
    platform := platform, plays := plays, likes := likes, bookmarks := bookmarks,
    url := id.url }

/-- The `rows_by_platform` mapping of the scanner: since `put` only
ever stores under the keys `"PC"` and `"Xbox"`, it is embedded as the
pair (PC slot, Xbox slot). -/
abbrev RB := Option StatRow × Option StatRow

/-- Source `put` (inner function of `extract_rows_from_api_payload`):
discard a candidate whose platform is not PC/Xbox or whose three stats
are all null, otherwise store (overwriting) under its platform. -/
def put (id : Identity) (rb : RB) (platform : Option String)
    (likes bookmarks plays : Option Nat) : RB :=
  if platform ≠ some "PC" ∧ platform ≠ some "Xbox" then rb
  else if likes = none ∧ bookmarks = none ∧ plays = none then rb
  else if platform = some "PC" then (some (mkRow id "PC" likes bookmarks plays), rb.2)
  else (rb.1, some (mkRow id "Xbox" likes bookmarks plays))

/-- Python `a or b` on optional JSON values: the first operand when it
is present and truthy, otherwise the second. -/
def pyOr (a b : Option Json) : Option Json :=
  match a with
  | some v => if truthy v then some v else b
  | none => b

/-- Tail of the platform-indicator lookup chain
`... get("platformName") or get("hardware") or get("name") or get("code")`. -/
def indicatorTail (fs : List (String × Json)) : Option Json :=
  pyOr (fs.lookup "platformName")
    (pyOr (fs.lookup "hardware") (pyOr (fs.lookup "name") (fs.lookup "code")))

/-- The platform-indicator lookup chain
`get("platform") or get("platformName") or get("hardware") or get("name") or get("code")`,
identical in the known-shape pass and in the generic walk. -/
def indicatorOf (fs : List (String × Json)) : Option Json :=
  pyOr (fs.lookup "platform") (indicatorTail fs)

/-- The stats source of a node:
`node.get("stats") if isinstance(node.get("stats"), dict) else node`,
identical in the known-shape list branch and in the generic walk. -/
def statsSource (fs : List (String × Json)) (node : Json) : Json :=
  match fs.lookup "stats" with
  | some (Json.obj sfs) => Json.obj sfs
  | _ => node

/-- Body of the known-shape pass for one element of a list-valued
section (non-dict elements are skipped). -/
def procItem (id : Identity) (rb : RB) (item : Json) : RB :=
  match item with
  | Json.obj fs =>
    let platform := normalize_platform (indicatorOf fs)
    let s := stats_from (statsSource fs (Json.obj fs))
    put id rb platform s.1 s.2.1 s.2.2
  | _ => rb

/-- Body of the known-shape pass for one entry of a dict-valued
section: the key is the platform indicator and the stats are read from
the value itself when it is a dict (an empty dict otherwise). -/
def procEntry (id : Identity) (rb : RB) (kv : String × Json) : RB :=
  let platform := normalize_platform (some (Json.str kv.1))
  let source := match kv.2 with
    | Json.obj sfs => Json.obj sfs
    | _ => Json.obj []
  let s := stats_from source
  put id rb platform s.1 s.2.1 s.2.2

/-- Known-shape pass over one top-level section (absent or scalar
sections are skipped). -/
def procSection (id : Identity) (rb : RB) (sec : Option Json) : RB :=
  match sec with
  | some (Json.arr items) => items.foldl (procItem id) rb
  | some (Json.obj entries) => entries.foldl (procEntry id) rb
  | _ => rb

/-- Known-shape pass of `extract_rows_from_api_payload`: the four fixed
top-level keys, in source order. -/
def knownPass (id : Identity) (payload : Json) (rb : RB) : RB :=
  match payload with
  | Json.obj fs =>
    ["platformStats", "statsByPlatform", "platforms", "stats"].foldl
      (fun acc key => procSection id acc (fs.lookup key)) rb
  | _ => rb

mutual

/-- Generic recursive pass (`walk` in the source): probe every dict
node for a platform indicator and stats, then recurse into its values;
recurse through lists; ignore scalars. -/
def walkJson (id : Identity) : Json → RB → RB
  | Json.obj fs, rb =>
    let platform := normalize_platform (indicatorOf fs)
    let s := stats_from (statsSource fs (Json.obj fs))
    walkFields id fs (put id rb platform s.1 s.2.1 s.2.2)
  | Json.arr es, rb => walkElems id es rb
  | _, rb => rb

/-- Walk the values of a dict in insertion order. -/
def walkFields (id : Identity) : List (String × Json) → RB → RB
  | [], rb => rb
  | (_, v) :: rest, rb => walkFields id rest (walkJson id v rb)

/-- Walk the elements of a list in order. -/
def walkElems (id : Identity) : List Json → RB → RB
  | [], rb => rb
  | e :: rest, rb => walkElems id rest (walkJson id e rb)

end

/-- Source `extract_rows_from_api_payload`: known-shape pass, then the
generic recursive pass over the whole payload, then read the mapping in
the fixed order PC, Xbox. -/
def extract_rows_from_api_payload (payload : Json) (id : Identity) : List StatRow :=
  let rb := walkJson id payload (knownPass id payload (none, none))
  (match rb.1 with | some r => [r] | none => []) ++
  (match rb.2 with | some r => [r] | none => [])

/-- Lookahead stop from a platform marker: one of `Xbox`, `Computer`,
`PC` matches case-insensitively here, followed by a word boundary
(`(?=(Xbox|Computer|PC)\b ...)` of the source regex). -/
def markerStop (s : List Char) : Bool :=
  ["Xbox", "Computer", "PC"].any (fun m =>
    isPrefixOfB (lcList m.data) (lcList s) &&
    (match s.drop m.data.length with
     | [] => true
     | c :: _ => !(isWordCharB c)))

/-- Lookahead stop from `$` (no `MULTILINE`): the end of the text, or
just before a trailing final newline. -/
def dollarStop (s : List Char) : Bool := s.isEmpty || s == ['\n']

/-- The full lookahead `(?=(Xbox|Computer|PC)\b|$)`. -/
def lookStop (s : List Char) : Bool := markerStop s || dollarStop s

/-- The non-greedy capture `(.*?)` bounded by the lookahead: consume
characters up to the first position where the lookahead succeeds. -/
def takeBlock : List Char → List Char
  | [] => []
  | c :: rest => if lookStop (c :: rest) then [] else c :: takeBlock rest

/-- The block captured by the source regex
`rf"LABEL\s*(.*?)(?=(Xbox|Computer|PC)\b|$)"` (IGNORECASE, DOTALL):
absent when the label does not occur case-insensitively; otherwise the
text after the first occurrence of the label, with leading whitespace
consumed by the greedy `\s*`, cut at the first lookahead stop. -/
def platformBlockOf (text label : List Char) : Option (List Char) :=
  match findIdxSub (lcList label) (lcList text) with
  | none => none
  | some i => some (takeBlock ((text.drop (i + label.length)).dropWhile pyWS))

/-- A character matched by `[\d,]`. -/
def isDigitComma (c : Char) : Bool := c.isDigit || c == ','

/-- The literal placeholder `---`. -/
def dashes : List Char := ['-', '-', '-']

/-- The capture of `rf"LABEL\s*([\d,]+|---)"` (IGNORECASE) searched in
a block: at the first position where the label occurs and is followed,
after whitespace, by a digit/comma run or by `---`, capture that run
(greedy) or the placeholder. -/
def findStatTok (label : List Char) : List Char → Option (List Char)
  | [] => none
  | c :: t =>
    if isPrefixOfB (lcList label) (lcList (c :: t)) then
      let rest := ((c :: t).drop label.length).dropWhile pyWS
      match rest with
      | d :: _ =>
        if isDigitComma d then some (rest.takeWhile isDigitComma)
        else if isPrefixOfB dashes rest then some dashes
        else findStatTok label t
      | [] => findStatTok label t
    else findStatTok label t

/-- Post-processing of one raw capture:
`None if raw in (None, "---") else digits_to_int(raw)`. -/
def statOfRaw (raw : Option (List Char)) : Option Nat :=
  match raw with
  | none => none
  | some r => if r = dashes then none else digits_to_int (Json.str (String.mk r))

/-- Source `find_platform_block`: isolate the platform's text block,
extract the three labelled counts, and return nothing when the label
is absent or when all three counts are null. -/
def find_platform_block (text platform_label : String) :
    Option (Option Nat × Option Nat × Option Nat) :=
  match platformBlockOf text.data platform_label.data with
  | none => none
  | some block =>
    let likes := statOfRaw (findStatTok "Likes".data block)
    let bookmarks := statOfRaw (findStatTok "Bookmarks".data block)
    let plays := statOfRaw (findStatTok "Plays".data block)
    if likes = none ∧ bookmarks = none ∧ plays = none then none
    else some (likes, bookmarks, plays)

/-- Python `a or b` on the results of `find_platform_block`: a present
result is a non-empty (hence truthy) dict, so the first present result
wins. -/
def pyOrBlock (a b : Option (Option Nat × Option Nat × Option Nat)) :
    Option (Option Nat × Option Nat × Option Nat) :=
  match a with
  | some v => some v
  | none => b

/-- Row built from one text-parsed stats triple. -/
def mkTextRow (id : Identity) (platform : String)
    (s : Option Nat × Option Nat × Option Nat) : StatRow :=
  mkRow id platform s.1 s.2.1 s.2.2

/-- The text strategy of `scrape_one` (source lines 208-233): resolve
the PC row from the `Computer` block, falling back to the `PC` block,
and the Xbox row from the `Xbox` block. -/
def textRows (text : String) (id : Identity) : List StatRow :=
  let pc := pyOrBlock (find_platform_block text "Computer") (find_platform_block text "PC")
  let xbox := find_platform_block text "Xbox"
  (match pc with | some s => [mkTextRow id "PC" s] | none => []) ++
  (match xbox with | some s => [mkTextRow id "Xbox" s] | none => [])

/-- The fallback placeholder row (platform `Unknown`, all stats null). -/
def unknownRow (id : Identity) : StatRow := mkRow id "Unknown" none none none

/-- The extraction coordinator: the pure tail of `scrape_one` (source
lines 200-271), including its three identical `if not rows` fallback
guards. -/
def extract (api_payload : Option Json) (text : String) (id : Identity) : List StatRow :=
  let rows0 : List StatRow :=
    match api_payload with
    | some p => extract_rows_from_api_payload p id
    | none => []
  let rows1 := if rows0 = [] then textRows text id else rows0
  let rows2 := if rows1 = [] then [unknownRow id] else rows1
  let rows3 := if rows2 = [] then [unknownRow id] else rows2
  let rows4 := if rows3 = [] then [unknownRow id] else rows3
  rows4

/-- Occurrence of one of the literal markers `Xbox`, `Computer`, `PC`
at this position, exactly as the claim words it (no case folding, no
word boundary). -/
def markerHereLit (s : List Char) : Bool :=
  ["Xbox", "Computer", "PC"].any (fun m => isPrefixOfB m.data s)

/-- Index of the first position (scanning left to right, suffix-wise)
satisfying `p`; the length of the list when none does. -/
def firstStopIdx (p : List Char → Bool) : List Char → Nat
  | [] => 0
  | c :: t => if p (c :: t) then 0 else firstStopIdx p t + 1

/-- Modelled from the claim's words (for comparison with
`platformBlockOf`): the block is exactly the substring from just after
the first case-insensitive occurrence of the label up to, but
excluding, the next occurrence of any of `Xbox`, `Computer`, `PC`, or
the end of the text if no such marker follows. -/
def specBlockOf (text label : List Char) : Option (List Char) :=
  match findIdxSub (lcList label) (lcList text) with
  | none => none
  | some i =>
    let after := text.drop (i + label.length)
    some (after.take (firstStopIdx markerHereLit after))

/-- Modelled from the amended claim's words: the block starts just
after the first case-insensitive occurrence of the label with the
immediately following whitespace removed, and extends up to, but
excluding, the first case-insensitive occurrence of `Xbox`, `Computer`
or `PC` that is not immediately followed by a letter, digit or
underscore, or to the end of the text (excluding a trailing final
newline) when no such marker follows. -/
def amendedBlockOf (text label : List Char) : Option (List Char) :=
  match findIdxSub (lcList label) (lcList text) with
  | none => none
  | some i =>
    let after := (text.drop (i + label.length)).dropWhile pyWS
    some (after.take (firstStopIdx lookStop after))

/-- Concrete identity fields used by witnesses and counterexamples. -/
def id0 : Identity := ⟨"2026-01-01", some "abc", some "slug", "http://u"⟩

/-- Concrete payload carrying one PC entry for the generic pass. -/
def wPayload : Json := Json.obj [("platform", Json.str "PC"), ("likes", Json.str "5")]

/-- Concrete payload whose keyed-collection entry carries its stats in
a nested `stats` sub-object. -/
def J3 : Json :=
  Json.obj [("platformStats",
    Json.obj [("PC", Json.obj [("stats", Json.obj [("likes", Json.str "7")])])])]

/-- Invariant of the `rows_by_platform` mapping: the PC slot only ever
holds a PC row and the Xbox slot only ever an Xbox row. -/
def RBinv (rb : RB) : Prop :=
  (∀ r, rb.1 = some r → r.platform = "PC") ∧ (∀ r, rb.2 = some r → r.platform = "Xbox")

theorem put_inv (id : Identity) (rb : RB) (platform : Option String)
    (l b p : Option Nat) (h : RBinv rb) : RBinv (put id rb platform l b p) := by
  unfold put
  split
  · exact h
  · split
    · exact h
    · split
      · refine ⟨?_, h.2⟩
        intro r hr
        have h2 := Option.some.inj hr
        rw [← h2]
        rfl
      · refine ⟨h.1, ?_⟩
        intro r hr
        have h2 := Option.some.inj hr
        rw [← h2]
        rfl

theorem foldl_pres {α β : Type} {P : α → Prop} (f : α → β → α) (l : List β)
    (hf : ∀ a x, P a → P (f a x)) (a : α) (ha : P a) : P (l.foldl f a) := by
  induction l generalizing a with
  | nil => exact ha
  | cons x xs ih => exact ih _ (hf _ _ ha)

theorem procItem_inv (id : Identity) (rb : RB) (item : Json) (h : RBinv rb) :
    RBinv (procItem id rb item) := by
  unfold procItem
  cases item with
  | obj fs => exact put_inv _ _ _ _ _ _ h
  | arr es => exact h
  | str s => exact h
  | num i f => exact h
  | bool b => exact h
  | null => exact h

theorem procEntry_inv (id : Identity) (rb : RB) (kv : String × Json) (h : RBinv rb) :
    RBinv (procEntry id rb kv) :=
  put_inv _ _ _ _ _ _ h

theorem procSection_inv (id : Identity) (rb : RB) (sec : Option Json) (h : RBinv rb) :
    RBinv (procSection id rb sec) := by
  unfold procSection
  cases sec with
  | none => exact h
  | some v =>
    cases v with
    | obj entries => exact foldl_pres _ _ (fun a x ha => procEntry_inv id a x ha) rb h
    | arr items => exact foldl_pres _ _ (fun a x ha => procItem_inv id a x ha) rb h
    | str s => exact h
    | num i f => exact h
    | bool b => exact h
    | null => exact h

theorem knownPass_inv (id : Identity) (payload : Json) (rb : RB) (h : RBinv rb) :
    RBinv (knownPass id payload rb) := by
  unfold knownPass
  cases payload with
  | obj fs => exact foldl_pres _ _ (fun a k ha => procSection_inv id a (fs.lookup k) ha) rb h
  | arr es => exact h
  | str s => exact h
  | num i f => exact h
  | bool b => exact h
  | null => exact h

mutual

theorem walkJson_inv (id : Identity) (j : Json) (rb : RB) (h : RBinv rb) :
    RBinv (walkJson id j rb) := by
  cases j with
  | obj fs =>
    simp only [walkJson]
    exact walkFields_inv id fs _ (put_inv _ _ _ _ _ _ h)
  | arr es =>
    simp only [walkJson]
    exact walkElems_inv id es rb h
  | str s => simpa only [walkJson] using h
  | num i f => simpa only [walkJson] using h
  | bool b => simpa only [walkJson] using h
  | null => simpa only [walkJson] using h

theorem walkFields_inv (id : Identity) (l : List (String × Json)) (rb : RB) (h : RBinv rb) :
    RBinv (walkFields id l rb) := by
  cases l with
  | nil => simpa only [walkFields] using h
  | cons kv rest =>
    cases kv with
    | mk k v =>
      simp only [walkFields]
      exact walkFields_inv id rest _ (walkJson_inv id v rb h)

theorem walkElems_inv (id : Identity) (l : List Json) (rb : RB) (h : RBinv rb) :
    RBinv (walkElems id l rb) := by
  cases l with
  | nil => simpa only [walkElems] using h
  | cons e rest =>
    simp only [walkElems]
    exact walkElems_inv id rest _ (walkJson_inv id e rb h)

end

theorem scanner_inv (payload : Json) (id : Identity) :
    RBinv (walkJson id payload (knownPass id payload (none, none))) := by
  have base : RBinv ((none, none) : RB) := by
    constructor <;> intro r hr <;> cases hr
  exact walkJson_inv id payload _ (knownPass_inv id payload (none, none) base)

theorem decDigitsAux (ds : List Char) (a : Nat) :
    ds.foldl (fun x c => 10 * x + (c.toNat - 48)) a
      = a * 10 ^ ds.length + Nat.ofDigits 10 ((ds.map (fun c => c.toNat - 48)).reverse) := by
  induction ds generalizing a with
  | nil => simp [Nat.ofDigits_nil]
  | cons c t ih =>
    simp only [List.foldl_cons, List.length_cons, List.map_cons, List.reverse_cons]
    rw [ih, Nat.ofDigits_append]
    simp only [Nat.ofDigits_cons, Nat.ofDigits_nil, List.length_reverse, List.length_map]
    ring

theorem decDigits_ofDigits (ds : List Char) :
    decDigits ds = Nat.ofDigits 10 ((ds.map (fun c => c.toNat - 48)).reverse) := by
  unfold decDigits
  rw [decDigitsAux]
  simp

/-- C1: when a payload is present and the JSON Stats Scanner produces at
least one row from it, the coordinator returns exactly those
payload-derived rows; the page text does not influence the result, so no
text-derived row can appear and the row set is never a payload/text mix
(strategy 1 short-circuits strategy 2). -/
theorem payload_short_circuits_text (p : Json) (t t' : String) (id : Identity)
    (h : extract_rows_from_api_payload p id ≠ []) :
    extract (some p) t id = extract_rows_from_api_payload p id ∧
    extract (some p) t id = extract (some p) t' id := by
  have e : ∀ u : String, extract (some p) u id = extract_rows_from_api_payload p id := by
    intro u
    simp [extract, h]
  exact ⟨e t, (e t).trans (e t').symm⟩

/-- Witness for C1 at a concrete payload, texts and identity. -/
theorem payload_short_circuits_text_witness :
    extract_rows_from_api_payload wPayload id0 ≠ [] ∧
    (extract (some wPayload) "Xbox Likes 3" id0 = extract_rows_from_api_payload wPayload id0 ∧
     extract (some wPayload) "Xbox Likes 3" id0 = extract (some wPayload) "other text" id0) :=
  ⟨by decide, payload_short_circuits_text wPayload "Xbox Likes 3" "other text" id0 (by decide)⟩

theorem guard_ne_nil (l : List StatRow) (x : StatRow) : (if l = [] then [x] else l) ≠ [] := by
  split
  · simp
  · assumption

/-- C2: when the payload stage and the text stage both yield zero rows,
the coordinator returns exactly one row, the Unknown placeholder with
all three stats null (the duplicated fallback guards fire at most once);
and every extraction call returns at least one row. -/
theorem unknown_fallback_exactly_one :
    (∀ (op : Option Json) (t : String) (id : Identity),
      (∀ p, op = some p → extract_rows_from_api_payload p id = []) →
      textRows t id = [] →
      extract op t id = [unknownRow id]) ∧
    (∀ (op : Option Json) (t : String) (id : Identity), extract op t id ≠ []) := by
  constructor
  · intro op t id h1 h2
    cases op with
    | none => simp [extract, h2]
    | some p => simp [extract, h1 p rfl, h2]
  · intro op t id
    simp only [extract]
    exact guard_ne_nil _ _

/-- Witness for C2: no payload and empty text give the single Unknown
row. -/
theorem unknown_fallback_exactly_one_witness :
    textRows "" id0 = [] ∧ extract none "" id0 = [unknownRow id0] :=
  ⟨by decide, unknown_fallback_exactly_one.1 none "" id0 (fun _ hp => nomatch hp) (by decide)⟩

/-- C5: a scanner candidate whose three stats are all null is discarded
by `put` even when its platform matched, and `find_platform_block`
never returns a present result whose three fields are all null. -/
theorem all_null_candidates_discarded :
    (∀ (id : Identity) (rb : RB) (platform : Option String),
      put id rb platform none none none = rb) ∧
    (∀ (text label : String) (l b p : Option Nat),
      find_platform_block text label = some (l, b, p) →
      ¬(l = none ∧ b = none ∧ p = none)) := by
  constructor
  · intro id rb platform
    unfold put
    split
    · rfl
    · simp
  · intro text label l b p h
    unfold find_platform_block at h
    cases hb : platformBlockOf text.data label.data with
    | none => rw [hb] at h; exact absurd h (by simp)
    | some block =>
      rw [hb] at h
      dsimp only at h
      split at h
      · exact absurd h (by simp)
      · next hcond =>
        simp only [Option.some.injEq, Prod.mk.injEq] at h
        obtain ⟨h1, h2, h3⟩ := h
        subst h1 h2 h3
        exact hcond

/-- Witness for C5 at concrete inputs. -/
theorem all_null_candidates_discarded_witness :
    put id0 (none, none) (some "PC") none none none = (none, none) ∧
    find_platform_block "Xbox Likes 5" "Xbox" = some (some 5, none, none) ∧
    ¬((some 5 : Option Nat) = none ∧ (none : Option Nat) = none ∧
      (none : Option Nat) = none) :=
  ⟨all_null_candidates_discarded.1 id0 (none, none) (some "PC"),
   by decide,
   all_null_candidates_discarded.2 "Xbox Likes 5" "Xbox" (some 5) none none (by decide)⟩

/-- C7: on a string containing at least one digit, the numeric token
parser returns the non-negative base-10 integer formed by concatenating
exactly its digit characters in order; on `None` or a digit-free string
(such as the placeholder `---`) it returns null. -/
theorem digits_to_int_spec (s : String) :
    (s.data.filter Char.isDigit ≠ [] →
      digits_to_int (Json.str s)
        = some (Nat.ofDigits 10
            (((s.data.filter Char.isDigit).map (fun c => c.toNat - 48)).reverse))) ∧
    (s.data.filter Char.isDigit = [] → digits_to_int (Json.str s) = none) ∧
    digits_to_int Json.null = none := by
  refine ⟨?_, ?_, rfl⟩
  · intro h
    simp [digits_to_int, pyStrL, List.isEmpty_iff, h, decDigits_ofDigits]
  · intro h
    simp [digits_to_int, pyStrL, List.isEmpty_iff, h]

/-- Witness for C7 on the spec's own example string. -/
theorem digits_to_int_spec_witness :
    "142,488".data.filter Char.isDigit ≠ [] ∧
    digits_to_int (Json.str "142,488") = some 142488 := by
  refine ⟨by decide, ?_⟩
  rw [(digits_to_int_spec "142,488").1 (by decide)]
  decide

/-- C8: extraction is deterministic — it is a pure function of the
payload, the text and the identity fields, so identical inputs give
identical row sequences. -/
theorem extract_deterministic (p₁ p₂ : Option Json) (t₁ t₂ : String) (i₁ i₂ : Identity)
    (hp : p₁ = p₂) (ht : t₁ = t₂) (hi : i₁ = i₂) :
    extract p₁ t₁ i₁ = extract p₂ t₂ i₂ := by
  subst hp ht hi
  rfl

/-- Witness for C8 at concrete inputs. -/
theorem extract_deterministic_witness : extract none "" id0 = extract none "" id0 :=
  extract_deterministic none none "" "" id0 id0 rfl rfl rfl

/-- C9: a platform-indicator key bound to a falsy value is skipped and
the rest of the key chain supplies the indicator instead (the chain is
the one used by both scanner passes); in particular
`platform = ""` with `name = "Xbox"` normalizes to Xbox, and such an
item yields an Xbox row rather than being discarded. -/
theorem falsy_indicator_skipped :
    (∀ (fs : List (String × Json)) (v : Json),
      fs.lookup "platform" = some v → truthy v = false →
      indicatorOf fs = indicatorTail fs) ∧
    normalize_platform (indicatorOf [("platform", Json.str ""), ("name", Json.str "Xbox")])
      = some "Xbox" ∧
    extract_rows_from_api_payload
        (Json.obj [("platformStats",
          Json.arr [Json.obj [("platform", Json.str ""), ("name", Json.str "Xbox"),
            ("likes", Json.str "4")]])]) id0
      = [mkRow id0 "Xbox" (some 4) none none] := by
  refine ⟨?_, by decide, by decide⟩
  intro fs v h ht
  simp [indicatorOf, pyOr, h, ht]

/-- Witness for C9: the skip lemma applied at the example object. -/
theorem falsy_indicator_skipped_witness :
    [("platform", Json.str ""), ("name", Json.str "Xbox")].lookup "platform"
      = some (Json.str "") ∧
    truthy (Json.str "") = false ∧
    indicatorOf [("platform", Json.str ""), ("name", Json.str "Xbox")]
      = indicatorTail [("platform", Json.str ""), ("name", Json.str "Xbox")] :=
  ⟨rfl, rfl, falsy_indicator_skipped.1 _ _ rfl rfl⟩

/-- C10: the numeric token parser coerces any input to its string
rendering itself, so callers need not pre-coerce; stripping removes a
minus sign and a decimal point, so `-5` yields `5` and `1.5` yields
`15`, and a non-null result is a natural number by construction. -/
theorem digits_to_int_coerces :
    (∀ v : Json, digits_to_int v = digits_to_int (Json.str (String.mk (pyStrL v)))) ∧
    digits_to_int (Json.num (-5) "") = some 5 ∧
    digits_to_int (Json.num 1 "5") = some 15 := by
  refine ⟨?_, by decide, by decide⟩
  intro v
  cases v <;> rfl

/-- C3 counterexample: in the known-shape pass a keyed-collection entry
whose stats sit in a nested `stats` sub-object yields nothing — the
claim says this payload yields a PC entry with likes = 7, but the whole
scan returns no row. -/
theorem keyed_section_nested_stats_ignored :
    extract_rows_from_api_payload J3 id0 = [] := by decide

/-- C3 (amended): when a fixed top-level key maps to a keyed collection,
each entry's key is the platform indicator, but its stats are extracted
from the entry object itself only — a nested `stats` sub-object is not
consulted in this branch: a payload with entry `"PC" -> likes = s`
yields the PC row, while `"PC" -> stats -> likes = s` yields nothing. -/
theorem keyed_section_stats_from_entry (s : String) (n : Nat) (id : Identity)
    (h : digits_to_int (Json.str s) = some n) :
    extract_rows_from_api_payload
        (Json.obj [("platformStats", Json.obj [("PC", Json.obj [("likes", Json.str s)])])]) id
      = [mkRow id "PC" (some n) none none] ∧
    extract_rows_from_api_payload
        (Json.obj [("platformStats", Json.obj [("PC", Json.obj [("stats",
            Json.obj [("likes", Json.str s)])])])]) id
      = [] := by
  constructor
  · have hput0 : ∀ (rb : RB) (l b p : Option Nat), put id rb none l b p = rb := by
      intro rb l b p
      simp [put]
    have hn : normalize_platform (some (Json.str "PC")) = some "PC" := by decide
    have hE : stats_from (Json.obj [("likes", Json.str s)]) = (some n, none, none) := by
      simp [stats_from, find_first_int, List.lookup, h]
    have hK : knownPass id
        (Json.obj [("platformStats", Json.obj [("PC", Json.obj [("likes", Json.str s)])])])
        (none, none)
        = (some (mkRow id "PC" (some n) none none), none) := by
      simp [knownPass, procSection, procEntry, List.lookup, hE, hn, put]
    have hW : ∀ rb : RB,
        walkJson id
          (Json.obj [("platformStats", Json.obj [("PC", Json.obj [("likes", Json.str s)])])])
          rb = rb := by
      intro rb
      simp [walkJson, walkFields, walkElems, indicatorOf, indicatorTail, pyOr,
        normalize_platform, statsSource, List.lookup, hput0]
    simp [extract_rows_from_api_payload, hK, hW]
  · rfl

/-- Witness for C3's amended theorem at the concrete digit string 7. -/
theorem keyed_section_stats_from_entry_witness :
    digits_to_int (Json.str "7") = some 7 ∧
    extract_rows_from_api_payload
        (Json.obj [("platformStats", Json.obj [("PC", Json.obj [("likes", Json.str "7")])])]) id0
      = [mkRow id0 "PC" (some 7) none none] :=
  ⟨by decide, (keyed_section_stats_from_entry "7" 7 id0 (by decide)).1⟩

/-- C4: the scanner result holds at most one row per platform and lists
the PC row before the Xbox row whenever both are present, regardless of
discovery order (its platform sequence is a sublist of [PC, Xbox]);
and a later `put` for the same platform overwrites an earlier one. -/
theorem scanner_platform_order (payload : Json) (id : Identity) :
    List.Sublist ((extract_rows_from_api_payload payload id).map (fun r => r.platform))
      ["PC", "Xbox"] ∧
    (∀ (rb : RB) (pf : String) (l b p l' b' p' : Option Nat),
      (pf = "PC" ∨ pf = "Xbox") → ¬(l' = none ∧ b' = none ∧ p' = none) →
      put id (put id rb (some pf) l b p) (some pf) l' b' p'
        = put id rb (some pf) l' b' p') := by
  constructor
  · obtain ⟨h1, h2⟩ := scanner_inv payload id
    simp only [extract_rows_from_api_payload]
    cases hA : (walkJson id payload (knownPass id payload (none, none))).1 with
    | none =>
      cases hB : (walkJson id payload (knownPass id payload (none, none))).2 with
      | none => simp
      | some r2 => simp [h2 r2 hB]
    | some r1 =>
      cases hB : (walkJson id payload (knownPass id payload (none, none))).2 with
      | none => simp [h1 r1 hA]
      | some r2 => simp [h1 r1 hA, h2 r2 hB]
  · have hsnd : ∀ (rb : RB) (l b p : Option Nat),
        (put id rb (some "PC") l b p).2 = rb.2 := by
      intro rb l b p
      unfold put
      split
      · rfl
      · split
        · rfl
        · split
          · rfl
          · next hc => exact absurd rfl hc
    have hfst : ∀ (rb : RB) (l b p : Option Nat),
        (put id rb (some "Xbox") l b p).1 = rb.1 := by
      intro rb l b p
      unfold put
      split
      · rfl
      · split
        · rfl
        · split
          · next hc => exact absurd hc (by simp)
          · rfl
    have put_pc : ∀ (rb : RB) (l b p : Option Nat), ¬(l = none ∧ b = none ∧ p = none) →
        put id rb (some "PC") l b p = (some (mkRow id "PC" l b p), rb.2) := by
      intro rb l b p hne
      unfold put
      rw [if_neg (by simp), if_neg hne, if_pos rfl]
    have put_xb : ∀ (rb : RB) (l b p : Option Nat), ¬(l = none ∧ b = none ∧ p = none) →
        put id rb (some "Xbox") l b p = (rb.1, some (mkRow id "Xbox" l b p)) := by
      intro rb l b p hne
      unfold put
      rw [if_neg (by simp), if_neg hne, if_neg (by simp)]
    intro rb pf l b p l' b' p' hpf hne
    rcases hpf with rfl | rfl
    · rw [put_pc _ _ _ _ hne, put_pc _ _ _ _ hne, hsnd]
    · rw [put_xb _ _ _ _ hne, put_xb _ _ _ _ hne, hfst]

/-- Witness for C4 at concrete inputs: empty scan result and a PC
overwrite. -/
theorem scanner_platform_order_witness :
    List.Sublist ((extract_rows_from_api_payload Json.null id0).map (fun r => r.platform))
      ["PC", "Xbox"] ∧
    put id0 (put id0 (none, none) (some "PC") (some 1) none none) (some "PC")
        (some 2) none none
      = put id0 (none, none) (some "PC") (some 2) none none :=
  ⟨(scanner_platform_order Json.null id0).1,
   (scanner_platform_order Json.null id0).2 (none, none) "PC" (some 1) none none
     (some 2) none none (Or.inl rfl) (by decide)⟩

theorem takeBlock_eq_take (s : List Char) :
    takeBlock s = s.take (firstStopIdx lookStop s) := by
  induction s with
  | nil => rfl
  | cons c t ih =>
    by_cases h : lookStop (c :: t)
    · simp [takeBlock, firstStopIdx, h]
    · simp [takeBlock, firstStopIdx, h, ih]

/-- C6 counterexample: for the text `PC 5` and the label `PC`, the block
the source searches is `5` (the regex's `\s*` consumes the space after
the label), while the claim's description gives the block ` 5`. -/
theorem platform_block_cex :
    platformBlockOf "PC 5".data "PC".data = some ['5'] ∧
    specBlockOf "PC 5".data "PC".data = some [' ', '5'] ∧
    platformBlockOf "PC 5".data "PC".data ≠ specBlockOf "PC 5".data "PC".data := by
  refine ⟨by decide, by decide, by decide⟩

/-- C6 (amended): if the label does not occur case-insensitively the
result is absent; otherwise the block is the substring just after the
first case-insensitive occurrence of the label with the immediately
following whitespace removed, extending up to but excluding the first
case-insensitive occurrence of `Xbox`, `Computer` or `PC` not
immediately followed by a letter, digit or underscore, or to the end of
the text (excluding a trailing final newline) when no such marker
follows. -/
theorem platform_block_amended (text label : List Char) :
    platformBlockOf text label = amendedBlockOf text label := by
  unfold platformBlockOf amendedBlockOf
  cases h : findIdxSub (lcList label) (lcList text) with
  | none => rfl
  | some i => simp [takeBlock_eq_take]
